import Mathlib

/-!
Shallow embedding of the derived-state core of the `foodai` nutrition tracker
(`src/js/storage.js` and `src/js/nutrition.js`).

Modelling conventions:
* calendar dates (the JS ISO `YYYY-MM-DD` strings) are integers counting days,
  so JS lexicographic string comparison of dates becomes integer comparison;
* instants (JS `Date` / ISO timestamps) are integers counting milliseconds;
* nutrient amounts and scores are rationals (JS numbers in this code are
  exact decimals, never rounded by the arithmetic the claims exercise);
* `localStorage` is a record of `Option`-valued keys: `none` is an absent key;
* `x || default` on a JS number is `jsOrQ` (JS treats `0` as falsy),
  `x || default` on a JS string is `jsOrS` (JS treats `""` as falsy).
-/

namespace FoodAI

/-- A recorded meal, as built by `StorageManager.saveMeal` (storage.js:65).
The JS `id`/`timestamp` fields are not consumed by any function modelled
here, so only the `date` stamp derived at insertion time is kept. -/
structure Meal where
  name : String
  calories : ℚ
  carbs : ℚ
  protein : ℚ
  fat : ℚ
  sodium : ℚ
  date : ℤ
deriving Repr, DecidableEq

/-- The caller-supplied part of a meal (nutrition estimate), before
`saveMeal` stamps the date onto it. -/
structure MealDraft where
  name : String
  calories : ℚ
  carbs : ℚ
  protein : ℚ
  fat : ℚ
  sodium : ℚ
deriving Repr, DecidableEq

/-- The settings record (storage.js:20-32).  `targetCalories` may be absent
in an imported settings blob, hence `Option`. -/
structure Settings where
  targetCalories : Option ℚ
  goal : String
  gender : String
  age : ℚ
  height : ℚ
  weight : ℚ
  activity : String
deriving Repr, DecidableEq

/-- Achievement counters (storage.js:424-431). -/
structure Achievements where
  streak : ℕ
  maxStreak : ℕ
  goalAchieved : ℕ
  perfectWeeks : ℕ
  vegetableDays : ℕ
  proteinDays : ℕ
deriving Repr, DecidableEq

/-- An earned badge: a catalog entry (storage.js:437-461) spread together
with an `earnedAt` stamp (storage.js:475-519). -/
structure Badge where
  id : String
  name : String
  icon : String
  desc : String
  threshold : ℕ
  earnedAt : ℤ
deriving Repr, DecidableEq

/-- The intermittent-fasting record (storage.js:640-648). -/
structure Fasting where
  enabled : Bool
  mode : String
  fastingStartTime : Option ℤ
  fastingEndTime : Option ℤ
  eatingStartTime : Option ℤ
  eatingEndTime : Option ℤ
  isActive : Bool
deriving Repr, DecidableEq

/-- The `localStorage` keys used by `StorageManager` (storage.js:5-13),
each holding one JSON blob; `none` models an absent key. -/
structure Store where
  apiKey : Option String
  meals : Option (List Meal)
  settings : Option Settings
  userInfo : Option String
  badges : Option (List Badge)
  achievements : Option Achievements
  fasting : Option Fasting
deriving Repr, DecidableEq

/-- JS `x || d` for a possibly-absent number: `0` is falsy. -/
def jsOrQ (x : Option ℚ) (d : ℚ) : ℚ :=
  match x with
  | some v => if v = 0 then d else v
  | none => d

/-- JS `x || d` for a string: `""` is falsy. -/
def jsOrS (x d : String) : String :=
  if x = "" then d else x

/-- The defaults injected by `initDefaults` (storage.js:20-32). -/
def defaultSettings : Settings :=
  { targetCalories := some 2000, goal := "maintain", gender := "male",
    age := 25, height := 170, weight := 70, activity := "moderate" }

/-- The fasting record written by `initFasting` (storage.js:638-651). -/
def initialFasting : Fasting :=
  { enabled := false, mode := "16:8", fastingStartTime := none,
    fastingEndTime := none, eatingStartTime := none, eatingEndTime := none,
    isActive := false }

/-- `getMeals` (storage.js:79-82): absent key reads as `[]`. -/
def getMeals (st : Store) : List Meal := st.meals.getD []

/-- `getSettings` (storage.js:52-55): absent key reads as `null`. -/
def getSettings (st : Store) : Option Settings := st.settings

/-- The settings as read on the paths that dereference `getSettings()`
without a null check (storage.js:330, storage.js:605); the constructor's
`initDefaults` guarantees the key is present there, so an absent key is
modelled as the default record. -/
def getSettingsD (st : Store) : Settings := st.settings.getD defaultSettings

/-- `getBadges` (storage.js:532-535). -/
def getBadges (st : Store) : List Badge := st.badges.getD []

/-- `getAchievements` (storage.js:538-548), with its all-zero fallback. -/
def getAchievements (st : Store) : Achievements :=
  st.achievements.getD ⟨0, 0, 0, 0, 0, 0⟩

/-- `getFastingSettings` (storage.js:654-657); the constructor's
`initFasting` guarantees the key, so absence reads as the initial record. -/
def getFastingSettings (st : Store) : Fasting := st.fasting.getD initialFasting

/-- `saveMeal` (storage.js:65-76): stamps the current date and prepends. -/
def mkMeal (d : MealDraft) (today : ℤ) : Meal :=
  { name := d.name, calories := d.calories, carbs := d.carbs,
    protein := d.protein, fat := d.fat, sodium := d.sodium, date := today }

/-- `saveMeal` (storage.js:65-76): `meals.unshift(mealData)` then persist. -/
def saveMeal (st : Store) (d : MealDraft) (today : ℤ) : Store :=
  { st with meals := some (mkMeal d today :: getMeals st) }

/-- `getMealsByDate` (storage.js:85-88). -/
def getMealsByDate (st : Store) (date : ℤ) : List Meal :=
  (getMeals st).filter (fun m => m.date = date)

/-- `getTodayMeals` (storage.js:91-94). -/
def getTodayMeals (st : Store) (today : ℤ) : List Meal :=
  getMealsByDate st today

/-- `getTodayCalories` (storage.js:97-100): `reduce` with initial 0.
The JS `meal.calories || 0` only guards an absent field, which the typed
model rules out. -/
def getTodayCalories (st : Store) (today : ℤ) : ℚ :=
  (getTodayMeals st today).foldl (fun t m => t + m.calories) 0

/-- `getRecentMeals` (storage.js:103-110): keeps meals whose date string is
≥ the date `days` before today (an inclusive window of `days + 1` calendar
days ending today). -/
def getRecentMeals (st : Store) (today : ℤ) (days : ℤ) : List Meal :=
  (getMeals st).filter (fun m => today - days ≤ m.date)

/-- The distinct-date array of `getCurrentStreak` (storage.js:564-565):
insertion-order dedup via a `Set`, then `sort()` (ascending ISO strings)
and `reverse()`. -/
def sortedMealDates (meals : List Meal) : List ℤ :=
  (((meals.map Meal.date).dedup).insertionSort (· ≤ ·)).reverse

/-- The backward walk of `getCurrentStreak` (storage.js:567-586).
`remaining` is the number of loop iterations left (the JS loop index runs
`i = 0 .. sortedDates.length - 1`), `i` the current index, `checkDate` the
cursor being probed, `streak` the accumulator. -/
def streakWalk (dates : List ℤ) (today : ℤ) :
    ℕ → ℕ → ℤ → ℕ → ℕ
  | 0, _, _, streak => streak
  | remaining + 1, i, checkDate, streak =>
    if checkDate ∈ dates then
      streakWalk dates today remaining (i + 1) (checkDate - 1) (streak + 1)
    else if i = 0 ∧ checkDate = today then
      streakWalk dates today remaining (i + 1) (checkDate - 1) streak
    else
      streak

/-- `getCurrentStreak` (storage.js:559-589). -/
def getCurrentStreak (meals : List Meal) (today : ℤ) : ℕ :=
  if meals = [] then 0
  else
    streakWalk (sortedMealDates meals) today
      (sortedMealDates meals).length 0 today 0

/-- The weekly totals record of `getWeeklyNutritionBalance`
(storage.js:235-242). -/
structure WeeklyTotal where
  calories : ℚ
  carbs : ℚ
  protein : ℚ
  fat : ℚ
  sodium : ℚ
  days : ℕ
deriving Repr, DecidableEq

/-- `getWeeklyNutritionBalance` (storage.js:228-266): `null` on an empty
window, else nutrient totals over the window plus the number of distinct
dates (`days`).  The JS sums by iterating the per-date groups; summing the
filtered list directly yields the same totals, since the groups partition
it. -/
def getWeeklyNutritionBalance (st : Store) (today : ℤ) : Option WeeklyTotal :=
  let weeklyMeals := getRecentMeals st today 7
  if weeklyMeals = [] then none
  else
    some
      { calories := (weeklyMeals.map Meal.calories).sum,
        carbs := (weeklyMeals.map Meal.carbs).sum,
        protein := (weeklyMeals.map Meal.protein).sum,
        fat := (weeklyMeals.map Meal.fat).sum,
        sodium := (weeklyMeals.map Meal.sodium).sum,
        days := ((weeklyMeals.map Meal.date).dedup).length }

/-- The result record of `calculateWeeklyNutritionScore`
(storage.js:272-283, 374-379).  `macroBalance` is `none` exactly when the
JS leaves `details.macroBalance` undefined (total macro-calories not
positive). The `weeklyData` echo field carries no extra information and is
omitted. -/
structure WeeklyScore where
  score : ℤ
  macroBalance : Option ℤ
  calorieConsistency : ℤ
  sodiumControl : ℤ
  proteinAdequacy : ℤ
  feedback : List String
deriving Repr, DecidableEq

/-- `calculateWeeklyNutritionScore` (storage.js:269-380).  All score
contributions are integers, so the final `Math.round` is the identity and
the running `score` is an `ℤ`. -/
def calculateWeeklyNutritionScore (st : Store) (today : ℤ) : WeeklyScore :=
  match getWeeklyNutritionBalance st today with
  | none => ⟨0, some 0, 0, 0, 0, []⟩
  | some weeklyData =>
    if weeklyData.days = 0 then ⟨0, some 0, 0, 0, 0, []⟩
    else
      let totalCarbsCal := weeklyData.carbs * 4
      let totalProteinCal := weeklyData.protein * 4
      let totalFatCal := weeklyData.fat * 9
      let totalMacroCal := totalCarbsCal + totalProteinCal + totalFatCal
      let macroPart : Option ℤ × List String :=
        if 0 < totalMacroCal then
          let carbsRatio := totalCarbsCal / totalMacroCal * 100
          let proteinRatio := totalProteinCal / totalMacroCal * 100
          let fatRatio := totalFatCal / totalMacroCal * 100
          let macroScore : ℤ :=
            40 - (if carbsRatio < 40 ∨ 70 < carbsRatio then 15 else 0)
               - (if proteinRatio < 15 then 15
                  else if 30 < proteinRatio then 5 else 0)
               - (if 35 < fatRatio then 10
                  else if fatRatio < 15 then 5 else 0)
          let fb :=
            (if 70 < carbsRatio then
               ["탄수화물 과다 " ++ toString (round carbsRatio) ++ "%"] else [])
            ++ (if carbsRatio < 40 then
               ["탄수화물 부족 " ++ toString (round carbsRatio) ++ "%"] else [])
            ++ (if proteinRatio < 15 then
               ["단백질 부족 " ++ toString (round proteinRatio) ++ "%"] else [])
            ++ (if 35 < fatRatio then
               ["지방 과다 " ++ toString (round fatRatio) ++ "%"] else [])
          (some (max 0 macroScore), fb)
        else (none, [])
      let targetCalories := jsOrQ (getSettingsD st).targetCalories 2000
      let avgDailyCalories := weeklyData.calories / (weeklyData.days : ℚ)
      let calorieDeviation := |avgDailyCalories - targetCalories| / targetCalories
      let calorieScore : ℤ :=
        30 - (if 3/10 < calorieDeviation then 20
              else if 3/20 < calorieDeviation then 10 else 0)
      let calorieFb :=
        if 3/10 < calorieDeviation then ["목표 칼로리와 큰 차이"] else []
      let avgDailySodium := weeklyData.sodium / (weeklyData.days : ℚ)
      let sodiumScore : ℤ :=
        20 - (if 2300 < avgDailySodium then 15
              else if 1800 < avgDailySodium then 8 else 0)
      let sodiumFb :=
        if 2300 < avgDailySodium then
          ["나트륨 과다 (평균 " ++ toString (round avgDailySodium) ++ "mg/일)"]
        else []
      let avgDailyProtein := weeklyData.protein / (weeklyData.days : ℚ)
      let proteinScore : ℤ :=
        10 - (if avgDailyProtein < 50 then 8
              else if avgDailyProtein < 60 then 4 else 0)
      let proteinFb :=
        if avgDailyProtein < 50 then
          ["단백질 섭취 부족 (평균 " ++ toString (round avgDailyProtein) ++ "g/일)"]
        else []
      let score : ℤ :=
        (match macroPart.1 with
         | some macroBalance => 100 - 40 + macroBalance
         | none => 100)
        - 30 + calorieScore - 20 + sodiumScore - 10 + proteinScore
      { score := max 0 (min 100 score),
        macroBalance := macroPart.1,
        calorieConsistency := calorieScore,
        sodiumControl := sodiumScore,
        proteinAdequacy := proteinScore,
        feedback := macroPart.2 ++ calorieFb ++ sodiumFb ++ proteinFb }

/-- The nutrition estimate record consumed by `NutritionAnalyzer`
(nutrition.js:117-142). -/
structure Nutrition where
  calories : ℚ
  carbs : ℚ
  protein : ℚ
  fat : ℚ
  sodium : ℚ
deriving Repr, DecidableEq

/-- `calculateNutritionScore` (nutrition.js:117-142).  The local JS
variable `totalCalories` is the macro-calorie sum
`carbs*4 + protein*4 + fat*9`; the `calories > 800` check uses the meal's
own `calories` field. -/
def calculateNutritionScore (n : Nutrition) : ℤ :=
  let totalCalories := n.carbs * 4 + n.protein * 4 + n.fat * 9
  if totalCalories = 0 then 0
  else
    let proteinRatio := n.protein * 4 / totalCalories
    let fatRatio := n.fat * 9 / totalCalories
    let score : ℤ := 100
    let score := if proteinRatio < 15/100 then score - 15 else score
    let score := if 35/100 < fatRatio then score - 20 else score
    let score := if 800 < n.calories then score - 15 else score
    let score := if 1000 < n.sodium then score - 20 else score
    max 0 (min 100 score)

/-- The per-meal quality score exactly as the specification words it
(spec §4.3): 0 when the macro-calorie sum is 0, otherwise 100 minus the
four penalties, clamped to [0, 100].  The spec's hyphenated
"total-calories" in the fat-ratio penalty is the macro-calorie total
(the code's `totalCalories` variable), while the unhyphenated
"total calories > 800" check is the meal's `calories` field. -/
def specMealQualityScore (n : Nutrition) : ℤ :=
  let totalMacroCal := n.carbs * 4 + n.protein * 4 + n.fat * 9
  if totalMacroCal = 0 then 0
  else
    max 0 (min 100
      (100 - (if n.protein * 4 / totalMacroCal < 15/100 then 15 else 0)
           - (if 35/100 < n.fat * 9 / totalMacroCal then 20 else 0)
           - (if 800 < n.calories then 15 else 0)
           - (if 1000 < n.sodium then 20 else 0)))

/-- One entry of the badge catalog (storage.js:437-461). -/
structure BadgeDef where
  id : String
  name : String
  icon : String
  desc : String
  threshold : ℕ
deriving Repr, DecidableEq

/-- `getBadgeDefinitions` (storage.js:437-461), as an association list. -/
def badgeDefinitions : List BadgeDef :=
  [⟨"streak3", "3일 연속", "🔥", "3일 연속 기록", 3⟩,
   ⟨"streak7", "일주일 마스터", "🏅", "7일 연속 기록", 7⟩,
   ⟨"streak14", "2주 달성", "💪", "14일 연속 기록", 14⟩,
   ⟨"streak30", "한 달 챔피언", "🏆", "30일 연속 기록", 30⟩,
   ⟨"streak100", "백일 장인", "👑", "100일 연속 기록", 100⟩,
   ⟨"goal5", "목표 시작", "🎯", "목표 칼로리 5회 달성", 5⟩,
   ⟨"goal10", "목표 초보", "🎖️", "목표 칼로리 10회 달성", 10⟩,
   ⟨"goal30", "목표 전문가", "🥇", "목표 칼로리 30회 달성", 30⟩,
   ⟨"goal100", "목표 달인", "💎", "목표 칼로리 100회 달성", 100⟩,
   ⟨"perfect1", "완벽한 주간", "⭐", "주간 영양 점수 90점 이상", 1⟩,
   ⟨"perfect3", "영양 마스터", "🌟", "완벽한 영양 균형 3회", 3⟩,
   ⟨"perfect10", "영양 전문가", "✨", "완벽한 영양 균형 10회", 10⟩,
   ⟨"veggie5", "채소 마스터", "🥗", "5일 연속 채소 섭취", 5⟩,
   ⟨"protein7", "단백질 챔피언", "💪", "7일 연속 단백질 충분 섭취", 7⟩]

/-- Catalog lookup, the JS `badgeDefs[badgeId]`. -/
def badgeDef? (bid : String) : Option BadgeDef :=
  badgeDefinitions.find? (fun bd => bd.id = bid)

/-- The spread `{...badge, earnedAt: new Date().toISOString()}`
(storage.js:475-478). -/
def mkBadge (bd : BadgeDef) (now : ℤ) : Badge :=
  { id := bd.id, name := bd.name, icon := bd.icon, desc := bd.desc,
    threshold := bd.threshold, earnedAt := now }

/-- One `forEach` body of `checkAndAwardBadges` (storage.js:472-520):
award `bid` when `counter` has reached its catalog threshold and `bid` is
not among the already-earned badges (`currentBadges`). -/
def awardIfDue (currentBadges : List Badge) (counter : ℕ) (now : ℤ)
    (bid : String) : List Badge :=
  match badgeDef? bid with
  | some bd =>
    if bd.threshold ≤ counter ∧ ¬ currentBadges.any (fun b => b.id = bid)
    then [mkBadge bd now] else []
  | none => []

/-- The new-badge list computed by `checkAndAwardBadges`
(storage.js:464-521): every group is checked against `currentBadges`
(the pre-call earned set), never against the badges pushed earlier in the
same call. -/
def checkAndAwardBadges (st : Store) (today now : ℤ) : List Badge :=
  let achievements := getAchievements st
  let currentBadges := getBadges st
  let streak := getCurrentStreak (getMeals st) today
  (["streak3", "streak7", "streak14", "streak30", "streak100"].flatMap
      (awardIfDue currentBadges streak now))
  ++ (["goal5", "goal10", "goal30", "goal100"].flatMap
      (awardIfDue currentBadges achievements.goalAchieved now))
  ++ (["perfect1", "perfect3", "perfect10"].flatMap
      (awardIfDue currentBadges achievements.perfectWeeks now))
  ++ awardIfDue currentBadges achievements.vegetableDays now "veggie5"
  ++ awardIfDue currentBadges achievements.proteinDays now "protein7"

/-- `checkAndAwardBadges`'s store effect (storage.js:523-528): persist
`currentBadges ++ newBadges` when anything was granted; returns the new
store and the newly granted badges. -/
def runCheckAndAwardBadges (st : Store) (today now : ℤ) :
    Store × List Badge :=
  let newBadges := checkAndAwardBadges st today now
  if newBadges = [] then (st, newBadges)
  else ({ st with badges := some (getBadges st ++ newBadges) }, newBadges)

/-- The vegetable keyword test of `saveMealWithAchievements`
(storage.js:613): the JS regex `/샐러드|채소|야채|상추|양상추|브로콜리|시금치/`
tested against the meal name, i.e. a substring match on any keyword. -/
def hasVeggie (name : String) : Bool :=
  ["샐러드", "채소", "야채", "상추", "양상추", "브로콜리", "시금치"].any
    (fun kw => (name.splitOn kw).length > 1)

/-- The ledger-and-counter part of `saveMealWithAchievements`
(storage.js:592-629): `saveMeal`, then `updateAchievements` with the
`updates` record — the merge `{...current, ...updates}` written out field
by field. -/
def applyMealAchievements (st : Store) (d : MealDraft) (today : ℤ) : Store :=
  let st1 := saveMeal st d today
  let streak := getCurrentStreak (getMeals st1) today
  let achievements := getAchievements st1
  let todayCalories := getTodayCalories st1 today
  let targetCalories := jsOrQ (getSettingsD st1).targetCalories 2000
  let deviation := |todayCalories - targetCalories| / targetCalories
  let weeklyScore := calculateWeeklyNutritionScore st1 today
  let updated : Achievements :=
    { streak := streak,
      maxStreak := max achievements.maxStreak streak,
      goalAchieved :=
        if deviation ≤ 1/10 then achievements.goalAchieved + 1
        else achievements.goalAchieved,
      vegetableDays :=
        if hasVeggie d.name then achievements.vegetableDays + 1
        else achievements.vegetableDays,
      proteinDays :=
        if 20 ≤ d.protein then achievements.proteinDays + 1
        else achievements.proteinDays,
      perfectWeeks :=
        if 90 ≤ weeklyScore.score then achievements.perfectWeeks + 1
        else achievements.perfectWeeks }
  { st1 with achievements := some updated }

/-- `saveMealWithAchievements` (storage.js:592-635): record the meal,
update the counters, then evaluate the badges. -/
def saveMealWithAchievements (st : Store) (d : MealDraft) (today now : ℤ) :
    Store × List Badge :=
  runCheckAndAwardBadges (applyMealAchievements st d today) today now

/-- The two operations the achievement claims range over: the
application's `record` entry point (`saveMealWithAchievements`) and a bare
badge evaluation (`checkAndAwardBadges`).  Each carries the calendar day
and the instant at which it runs. -/
inductive Op
  | record (d : MealDraft) (today now : ℤ)
  | evalBadges (today now : ℤ)
deriving Repr

/-- Run one operation; returns the new store and the newly granted
badges. -/
def stepOp (st : Store) : Op → Store × List Badge
  | .record d today now => saveMealWithAchievements st d today now
  | .evalBadges today now => runCheckAndAwardBadges st today now

/-- Run a sequence of operations. -/
def runOps (st : Store) : List Op → Store
  | [] => st
  | op :: ops => runOps (stepOp st op).1 ops

/-- Run a sequence of operations, collecting each call's newly granted
badge list. -/
def grantTrace (st : Store) : List Op → List (List Badge)
  | [] => []
  | op :: ops => (stepOp st op).2 :: grantTrace (stepOp st op).1 ops

/-- The ids of the earned badges of a store. -/
def badgeIds (st : Store) : List String := (getBadges st).map Badge.id

/-- The number of calls of a grant trace that returned the badge id `bid`
among their newly granted badges. -/
def countGrants (bid : String) (tr : List (List Badge)) : ℕ :=
  (tr.filter (fun gs => gs.any (fun b => b.id = bid))).length

/-- The shape of a successfully JSON-parsed import document
(storage.js:184-198): each field is `some` when present and truthy in the
parsed object.  `JSON.parse` itself is a host builtin; its outcome is the
`Option ImportPayload` argument of `importData` (`none` for an input that
is not parseable JSON). -/
structure ImportPayload where
  meals : Option (List Meal)
  settings : Option Settings
deriving Repr, DecidableEq

/-- `importData` (storage.js:184-198): a parse failure is caught and
reported as `false` with no write; otherwise each of the `meals` and
`settings` keys is overwritten exactly when the corresponding field is
present. -/
def importData (st : Store) (parsed : Option ImportPayload) : Store × Bool :=
  match parsed with
  | none => (st, false)
  | some data =>
    let st :=
      match data.meals with
      | some ms => { st with meals := some ms }
      | none => st
    let st :=
      match data.settings with
      | some s => { st with settings := some s }
      | none => st
    (st, true)

/-- `initDefaults` (storage.js:20-32): inject the default settings when
`getSettings()` is falsy (absent key). -/
def initDefaults (st : Store) : Store :=
  if (getSettings st).isNone then { st with settings := some defaultSettings }
  else st

/-- `clearAllData` (storage.js:201-208): remove every key except
`API_KEY`, then `initDefaults`. -/
def clearAllData (st : Store) : Store :=
  initDefaults
    { apiKey := st.apiKey, meals := none, settings := none,
      userInfo := none, badges := none, achievements := none,
      fasting := none }

/-- The `status` discriminator returned by `getFastingStatus`
(storage.js:702-764). -/
inductive FastPhase
  | disabled
  | fasting
  | eating
  | idle
deriving Repr, DecidableEq

/-- The record returned by `getFastingStatus` (storage.js:702-764).  The
fields beyond `enabled`/`status` exist only in the `fasting`/`eating`
branches, hence `Option`. -/
structure FastingStatus where
  enabled : Bool
  status : FastPhase
  mode : Option String
  startTime : Option ℤ
  endTime : Option ℤ
  elapsedHours : Option ℤ
  elapsedMinutes : Option ℤ
  remainingHours : Option ℤ
  remainingMinutes : Option ℤ
  progress : Option ℤ
  isCompleted : Option Bool
  shouldStartFasting : Option Bool
deriving Repr, DecidableEq

/-- The elapsed/remaining/progress arithmetic shared by the `fasting` and
`eating` branches of `getFastingStatus` (storage.js:715-757), over
millisecond instants.  The JS `%` is a truncated remainder; the elapsed
spans exercised here are the non-negative case, where it agrees with
`Int.emod`.  A rational division by zero (phase of zero length) is 0 in
this model where JS would produce `NaN`. -/
def phaseTiming (startTime endTime now : ℤ) :
    ℤ × ℤ × ℤ × ℤ × ℤ :=
  let elapsed := now - startTime
  let total := endTime - startTime
  let remaining := endTime - now
  (⌊(elapsed : ℚ) / (1000 * 60 * 60)⌋,
   ⌊((elapsed % (1000 * 60 * 60)) : ℚ) / (1000 * 60)⌋,
   max 0 ⌊(remaining : ℚ) / (1000 * 60 * 60)⌋,
   max 0 ⌊((remaining % (1000 * 60 * 60)) : ℚ) / (1000 * 60)⌋,
   min 100 (round ((elapsed : ℚ) / (total : ℚ) * 100)))

/-- `getFastingStatus` (storage.js:702-764).  A `null` end time would make
the JS timing fields `NaN`; it is read as instant 0 here, and the `status`
discrimination — all any claim consumes — is unaffected. -/
def getFastingStatus (st : Store) (now : ℤ) : FastingStatus :=
  let settings := getFastingSettings st
  if settings.enabled = false then
    ⟨false, .disabled, none, none, none, none, none, none, none, none,
     none, none⟩
  else if settings.isActive ∧ settings.fastingStartTime.isSome then
    let startTime := settings.fastingStartTime.getD 0
    let endTime := settings.fastingEndTime.getD 0
    let t := phaseTiming startTime endTime now
    { enabled := true, status := .fasting, mode := some settings.mode,
      startTime := settings.fastingStartTime,
      endTime := settings.fastingEndTime,
      elapsedHours := some t.1, elapsedMinutes := some t.2.1,
      remainingHours := some t.2.2.1, remainingMinutes := some t.2.2.2.1,
      progress := some t.2.2.2.2,
      isCompleted := some (decide (endTime - now ≤ 0)),
      shouldStartFasting := none }
  else if settings.eatingStartTime.isSome then
    let startTime := settings.eatingStartTime.getD 0
    let endTime := settings.eatingEndTime.getD 0
    let t := phaseTiming startTime endTime now
    { enabled := true, status := .eating, mode := some settings.mode,
      startTime := settings.eatingStartTime,
      endTime := settings.eatingEndTime,
      elapsedHours := some t.1, elapsedMinutes := some t.2.1,
      remainingHours := some t.2.2.1, remainingMinutes := some t.2.2.2.1,
      progress := some t.2.2.2.2,
      isCompleted := none,
      shouldStartFasting := some (decide (endTime - now ≤ 0)) }
  else
    ⟨true, .idle, none, none, none, none, none, none, none, none,
     none, none⟩

/-- The fasting enable/disable toggle: `toggleFastingMode` (app.js:1509)
calls `saveFastingSettings({ enabled })` (storage.js:660-665), a spread
merge that touches only the `enabled` field. -/
def toggleFastingMode (st : Store) (enabled : Bool) : Store :=
  { st with fasting := some { getFastingSettings st with enabled := enabled } }

/-- The `[fastHours, eatHours]` destructuring of
`mode.split(':').map(Number)` (storage.js:671, 689).  An unparseable
component, `NaN` in JS, is read as 0 here; no claim exercises one. -/
def parseModeHours (mode : String) : ℤ × ℤ :=
  match (mode.splitOn ":").map (fun s => s.toNat?) with
  | some f :: some e :: _ => ((f : ℤ), (e : ℤ))
  | some f :: _ => ((f : ℤ), 0)
  | _ => (0, 0)

/-- `startFasting` (storage.js:668-683): `setHours(+fastHours)` over
millisecond instants. -/
def startFasting (st : Store) (now : ℤ) : Store :=
  let mode := jsOrS (getFastingSettings st).mode "16:8"
  let fastHours := (parseModeHours mode).1
  let updated :=
    { getFastingSettings st with
      isActive := true,
      fastingStartTime := some now,
      fastingEndTime := some (now + fastHours * (1000 * 60 * 60)),
      eatingStartTime := none,
      eatingEndTime := none }
  { st with fasting := some updated }

/-- `startEating` (storage.js:686-699): note it leaves the fasting-phase
timestamps in place. -/
def startEating (st : Store) (now : ℤ) : Store :=
  let mode := jsOrS (getFastingSettings st).mode "16:8"
  let eatHours := (parseModeHours mode).2
  let updated :=
    { getFastingSettings st with
      isActive := false,
      eatingStartTime := some now,
      eatingEndTime := some (now + eatHours * (1000 * 60 * 60)) }
  { st with fasting := some updated }

/-- `endFasting` (storage.js:767-775): clear every phase timestamp. -/
def endFasting (st : Store) : Store :=
  let updated :=
    { getFastingSettings st with
      isActive := false,
      fastingStartTime := none,
      fastingEndTime := none,
      eatingStartTime := none,
      eatingEndTime := none }
  { st with fasting := some updated }

/-- A fold of `saveMeal` over a sequence of (draft, recording-date)
pairs: the ledger-only effect of a sequence of `record()` calls. -/
def recordAll (st : Store) : List (MealDraft × ℤ) → Store
  | [] => st
  | e :: es => recordAll (saveMeal st e.1 e.2) es

/-- A store with every key absent, for concrete scenarios. -/
def emptyStore : Store :=
  ⟨none, none, none, none, none, none, none⟩

/-- A concrete meal for concrete scenarios. -/
def sampleMeal (date : ℤ) : Meal :=
  ⟨"김치찌개", 500, 60, 20, 10, 300, date⟩

/-- A concrete meal draft for concrete scenarios. -/
def sampleDraft : MealDraft :=
  ⟨"김치찌개", 500, 60, 20, 10, 300⟩

/-- A store already holding one earned badge, for concrete scenarios. -/
def badgeStore : Store :=
  { emptyStore with
    badges := some [⟨"streak3", "3일 연속", "🔥", "3일 연속 기록", 3, 0⟩] }

/-- A store in which the fasting feature is enabled and idle, for concrete
scenarios. -/
def fastingIdleStore : Store :=
  { emptyStore with fasting := some { initialFasting with enabled := true } }

/-- A store holding one zero-macro meal on day 10, for concrete
scenarios. -/
def waterStore : Store :=
  { emptyStore with meals := some [⟨"물", 0, 0, 0, 0, 0, 10⟩] }

/-! ## Theorems -/

lemma clamp01_bounds (s : ℤ) :
    0 ≤ max 0 (min 100 s) ∧ max 0 (min 100 s) ≤ 100 :=
  ⟨le_max_left 0 _, max_le (by norm_num) (min_le_left _ _)⟩

/-- C2: for every meal, the per-meal quality score computed by
`calculateNutritionScore` equals the specification's formula: 0 when
`carbs*4 + protein*4 + fat*9 = 0`, and otherwise 100 minus 15 when
protein-calories over total-macro-calories is below 0.15, minus 20 when
fat-calories over the macro-calorie total (the code's `totalCalories`)
exceeds 0.35, minus 15 when the meal's calories exceed 800, minus 20 when
sodium exceeds 1000, clamped to [0, 100].  Proved for all meals, hence in
particular for those with non-negative components. -/
theorem claim_C2 (n : Nutrition) :
    calculateNutritionScore n = specMealQualityScore n := by
  simp only [calculateNutritionScore, specMealQualityScore]
  split_ifs <;> norm_num

/-- C4: for every store (ledger plus settings) and every current day, the
weekly nutrition-balance score is in [0, 100] (integrality is the `ℤ`
return type: every contribution is an integer, making the JS `Math.round`
the identity). -/
theorem claim_C4 (st : Store) (today : ℤ) :
    0 ≤ (calculateWeeklyNutritionScore st today).score ∧
    (calculateWeeklyNutritionScore st today).score ≤ 100 := by
  unfold calculateWeeklyNutritionScore
  cases getWeeklyNutritionBalance st today with
  | none => exact ⟨le_refl 0, by norm_num⟩
  | some w =>
    dsimp only
    by_cases hd : w.days = 0
    · rw [if_pos hd]
      exact ⟨le_refl 0, by norm_num⟩
    · rw [if_neg hd]
      exact clamp01_bounds _

/-- C9: `importData` on an unparseable input returns `false` and leaves
the whole store — in particular the meals and settings keys — unchanged;
on a parsed input it returns `true` and overwrites exactly the keys whose
field is present, leaving every other key unchanged. -/
theorem claim_C9 (st : Store) (p : ImportPayload) :
    importData st none = (st, false) ∧
    (importData st (some p)).2 = true ∧
    (importData st (some p)).1 =
      { st with meals := p.meals.or st.meals,
                settings := p.settings.or st.settings } := by
  refine ⟨rfl, ?_, ?_⟩ <;> rcases p with ⟨pm, ps⟩ <;>
    cases pm <;> cases ps <;> rfl

/-- C10: `clearAllData` keeps the API key identical, removes every other
stored key, and re-injects the default settings record (targetCalories
2000, goal "maintain") into the now-empty settings key. -/
theorem claim_C10 (st : Store) :
    (clearAllData st).apiKey = st.apiKey ∧
    (clearAllData st).meals = none ∧
    (clearAllData st).userInfo = none ∧
    (clearAllData st).badges = none ∧
    (clearAllData st).achievements = none ∧
    (clearAllData st).fasting = none ∧
    (clearAllData st).settings = some defaultSettings :=
  ⟨rfl, rfl, rfl, rfl, rfl, rfl, rfl⟩

lemma getMeals_saveMeal (st : Store) (d : MealDraft) (today : ℤ) :
    getMeals (saveMeal st d today) = mkMeal d today :: getMeals st := rfl

lemma getMeals_recordAll (es : List (MealDraft × ℤ)) :
    ∀ st : Store,
      getMeals (recordAll st es) =
        (es.map (fun e => mkMeal e.1 e.2)).reverse ++ getMeals st := by
  induction es with
  | nil => intro st; simp [recordAll]
  | cons e es ih =>
    intro st
    rw [recordAll, ih, getMeals_saveMeal]
    simp

/-- C7: starting from an empty ledger, after any sequence of `record()`
calls (each stamping its own recording date), `today()` returns exactly
the recorded meals whose stored date equals the current date, in reverse
insertion order (because `record()` prepends each new meal). -/
theorem claim_C7 (es : List (MealDraft × ℤ)) (today : ℤ) (st0 : Store)
    (h : getMeals st0 = []) :
    getTodayMeals (recordAll st0 es) today =
      ((es.map (fun e => mkMeal e.1 e.2)).reverse).filter
        (fun m => m.date = today) := by
  unfold getTodayMeals getMealsByDate
  rw [getMeals_recordAll, h, List.append_nil]

/-- Witness for C7: three records, two of them on the current day; the
most recently recorded one comes out first. -/
theorem claim_C7_witness :
    getMeals emptyStore = [] ∧
    getTodayMeals
        (recordAll emptyStore [(sampleDraft, 5), (sampleDraft, 4), (sampleDraft, 5)])
        5 =
      [mkMeal sampleDraft 5, mkMeal sampleDraft 5] := by
  refine ⟨rfl, ?_⟩
  rw [claim_C7 _ 5 emptyStore rfl]
  decide

lemma streakWalk_exact (dates : List ℤ) (today : ℤ) :
    ∀ (n remaining i : ℕ) (c : ℤ) (s : ℕ),
      n ≤ remaining →
      (∀ k : ℕ, k < n → (c - (k : ℤ)) ∈ dates) →
      (c - (n : ℤ)) ∉ dates →
      (0 < n ∨ 0 < i) →
      streakWalk dates today remaining i c s = s + n := by
  intro n
  induction n with
  | zero =>
    intro remaining i c s _ _ hgap hpos
    have hi : 0 < i := by omega
    have hc : c ∉ dates := by simpa using hgap
    cases remaining with
    | zero => simp [streakWalk]
    | succ r =>
      rw [streakWalk, if_neg hc, if_neg (by omega : ¬(i = 0 ∧ c = today))]
      omega
  | succ n ih =>
    intro remaining i c s hr hmem hgap _
    have hc : c ∈ dates := by
      have h0 := hmem 0 (Nat.succ_pos n)
      simpa using h0
    cases remaining with
    | zero => omega
    | succ r =>
      have hmem' : ∀ k : ℕ, k < n → (c - 1 - (k : ℤ)) ∈ dates := by
        intro k hk
        have h := hmem (k + 1) (by omega)
        have he : c - ((k + 1 : ℕ) : ℤ) = c - 1 - (k : ℤ) := by push_cast; ring
        rwa [he] at h
      have hgap' : (c - 1 - (n : ℤ)) ∉ dates := by
        have he : c - ((n + 1 : ℕ) : ℤ) = c - 1 - (n : ℤ) := by push_cast; ring
        rwa [he] at hgap
      rw [streakWalk, if_pos hc,
        ih r (i + 1) (c - 1) (s + 1) (by omega) hmem' hgap'
          (Or.inr (Nat.succ_pos i))]
      omega

lemma mem_sortedMealDates {meals : List Meal} {x : ℤ} :
    x ∈ sortedMealDates meals ↔ ∃ m ∈ meals, m.date = x := by
  simp [sortedMealDates, List.mem_reverse, List.mem_insertionSort,
    List.mem_dedup, List.mem_map]

/-- C1: if some meal is recorded on each of `N ≥ 1` consecutive days
ending today and none on the day immediately before that run, the streak
is exactly `N`; and if every recorded day lies strictly before yesterday,
the walk stops at the gap and the streak is 0. -/
theorem claim_C1 :
    (∀ (meals : List Meal) (today : ℤ) (N : ℕ),
        1 ≤ N →
        (∀ k : ℕ, k < N → ∃ m ∈ meals, m.date = today - (k : ℤ)) →
        (∀ m ∈ meals, m.date ≠ today - (N : ℤ)) →
        getCurrentStreak meals today = N) ∧
    (∀ (meals : List Meal) (today : ℤ),
        meals ≠ [] →
        (∀ m ∈ meals, m.date < today - 1) →
        getCurrentStreak meals today = 0) := by
  constructor
  · intro meals today N hN hrun hgap
    obtain ⟨m0, hm0, _⟩ := hrun 0 hN
    have hne : meals ≠ [] := by
      intro h
      rw [h] at hm0
      exact absurd hm0 (List.not_mem_nil m0)
    rw [getCurrentStreak, if_neg hne]
    have hmemD : ∀ k : ℕ, k < N → (today - (k : ℤ)) ∈ sortedMealDates meals := by
      intro k hk
      exact mem_sortedMealDates.2 (hrun k hk)
    have hgapD : (today - (N : ℤ)) ∉ sortedMealDates meals := by
      intro hx
      obtain ⟨m, hm, hdm⟩ := mem_sortedMealDates.1 hx
      exact hgap m hm hdm
    have hlen : N ≤ (sortedMealDates meals).length := by
      classical
      have hinj : Function.Injective (fun k : ℕ => today - (k : ℤ)) := by
        intro a b hab
        simp only at hab
        omega
      have hcard : ((Finset.range N).image (fun k : ℕ => today - (k : ℤ))).card = N := by
        rw [Finset.card_image_of_injective _ hinj, Finset.card_range]
      have hsub : (Finset.range N).image (fun k : ℕ => today - (k : ℤ)) ⊆
          (sortedMealDates meals).toFinset := by
        intro x hx
        obtain ⟨k, hk, rfl⟩ := Finset.mem_image.1 hx
        rw [List.mem_toFinset]
        exact hmemD k (Finset.mem_range.1 hk)
      calc N = _ := hcard.symm
        _ ≤ (sortedMealDates meals).toFinset.card := Finset.card_le_card hsub
        _ ≤ (sortedMealDates meals).length := (sortedMealDates meals).toFinset_card_le
    have hw := streakWalk_exact (sortedMealDates meals) today N
      (sortedMealDates meals).length 0 today 0 hlen hmemD hgapD (Or.inl hN)
    simpa using hw
  · intro meals today hne hold
    rw [getCurrentStreak, if_neg hne]
    have hlen : 0 < (sortedMealDates meals).length := by
      obtain ⟨m, hm⟩ := List.exists_mem_of_ne_nil meals hne
      have hmem : m.date ∈ sortedMealDates meals :=
        mem_sortedMealDates.2 ⟨m, hm, rfl⟩
      exact List.length_pos.2 (List.ne_nil_of_mem hmem)
    obtain ⟨r, hr⟩ : ∃ r, (sortedMealDates meals).length = r + 1 :=
      ⟨(sortedMealDates meals).length - 1, by omega⟩
    rw [hr, streakWalk]
    have ht : today ∉ sortedMealDates meals := by
      intro hx
      obtain ⟨m, hm, hdm⟩ := mem_sortedMealDates.1 hx
      have := hold m hm
      omega
    rw [if_neg ht, if_pos ⟨rfl, rfl⟩]
    have hgap1 : (today - 1 - ((0 : ℕ) : ℤ)) ∉ sortedMealDates meals := by
      intro hx
      obtain ⟨m, hm, hdm⟩ := mem_sortedMealDates.1 hx
      have := hold m hm
      omega
    have hw := streakWalk_exact (sortedMealDates meals) today 0 r (0 + 1)
      (today - 1) 0 (Nat.zero_le r)
      (fun k hk => absurd hk (Nat.not_lt_zero k)) hgap1 (Or.inr (by omega))
    simpa using hw

/-- Witness for C1: meals on days 4 and 5 with today = 5 give streak 2;
a single meal on day 2 with today = 5 gives streak 0. -/
theorem claim_C1_witness :
    getCurrentStreak [sampleMeal 5, sampleMeal 4] 5 = 2 ∧
    getCurrentStreak [sampleMeal 2] 5 = 0 :=
  ⟨claim_C1.1 [sampleMeal 5, sampleMeal 4] 5 2 (by norm_num)
      (by decide) (by decide),
   claim_C1.2 [sampleMeal 2] 5 (by decide) (by decide)⟩

lemma awardIfDue_fresh {cur : List Badge} {counter : ℕ} {now : ℤ}
    {bid : String} {b : Badge} (hb : b ∈ awardIfDue cur counter now bid) :
    b.id ∉ cur.map Badge.id := by
  unfold awardIfDue at hb
  cases hfind : badgeDef? bid with
  | none =>
    rw [hfind] at hb
    exact absurd hb (List.not_mem_nil b)
  | some bd =>
    rw [hfind] at hb
    dsimp only at hb
    split_ifs at hb with hcond
    · obtain ⟨_, habs⟩ := hcond
      have hbeq : b = mkBadge bd now := by simpa using hb
      have hid : bd.id = bid := by
        unfold badgeDef? at hfind
        have := List.find?_some hfind
        simpa using this
      subst hbeq
      intro hmem
      apply habs
      rw [List.any_eq_true]
      obtain ⟨x, hx, hxid⟩ := List.mem_map.1 hmem
      simp only [mkBadge] at hxid
      exact ⟨x, hx, by simp [hxid, hid]⟩
    · exact absurd hb (List.not_mem_nil b)

lemma checkAndAwardBadges_fresh {st : Store} {today now : ℤ} {b : Badge}
    (hb : b ∈ checkAndAwardBadges st today now) :
    b.id ∉ badgeIds st := by
  unfold checkAndAwardBadges at hb
  simp only [List.mem_append, List.mem_flatMap] at hb
  rcases hb with ((((⟨_, _, h⟩ | ⟨_, _, h⟩) | ⟨_, _, h⟩) | h) | h) <;>
    exact awardIfDue_fresh h

lemma runCheckAndAwardBadges_snd (st : Store) (today now : ℤ) :
    (runCheckAndAwardBadges st today now).2 =
      checkAndAwardBadges st today now := by
  by_cases h : checkAndAwardBadges st today now = [] <;>
    simp [runCheckAndAwardBadges, h]

lemma runCheckAndAwardBadges_getBadges (st : Store) (today now : ℤ) :
    getBadges (runCheckAndAwardBadges st today now).1 =
      getBadges st ++ (runCheckAndAwardBadges st today now).2 := by
  by_cases h : checkAndAwardBadges st today now = [] <;>
    simp [runCheckAndAwardBadges, h, getBadges]

lemma badges_applyMealAchievements (st : Store) (d : MealDraft) (today : ℤ) :
    (applyMealAchievements st d today).badges = st.badges := rfl

lemma runCheck_fresh {st' st : Store} {today now : ℤ} {b : Badge}
    (hbadges : st'.badges = st.badges)
    (hb : b ∈ (runCheckAndAwardBadges st' today now).2) :
    b.id ∉ badgeIds st := by
  rw [runCheckAndAwardBadges_snd] at hb
  have h := checkAndAwardBadges_fresh hb
  simpa [badgeIds, getBadges, hbadges] using h

lemma stepOp_getBadges (st : Store) (op : Op) :
    getBadges (stepOp st op).1 = getBadges st ++ (stepOp st op).2 := by
  cases op with
  | record d today now =>
    show getBadges (saveMealWithAchievements st d today now).1 = _
    unfold saveMealWithAchievements
    rw [runCheckAndAwardBadges_getBadges]
    have hb : getBadges (applyMealAchievements st d today) = getBadges st := by
      simp [getBadges, badges_applyMealAchievements]
    rw [hb]
    rfl
  | evalBadges today now => exact runCheckAndAwardBadges_getBadges st today now

lemma stepOp_fresh {st : Store} {op : Op} {bid : String}
    (h : bid ∈ ((stepOp st op).2).map Badge.id) : bid ∉ badgeIds st := by
  obtain ⟨b, hb, rfl⟩ := List.mem_map.1 h
  cases op with
  | record d today now =>
    have hb' : b ∈ (runCheckAndAwardBadges (applyMealAchievements st d today)
        today now).2 := hb
    exact runCheck_fresh (badges_applyMealAchievements st d today) hb'
  | evalBadges today now =>
    have hb' : b ∈ (runCheckAndAwardBadges st today now).2 := hb
    exact runCheck_fresh rfl hb'

lemma badgeIds_stepOp (st : Store) (op : Op) :
    badgeIds (stepOp st op).1 =
      badgeIds st ++ ((stepOp st op).2).map Badge.id := by
  simp [badgeIds, stepOp_getBadges]

lemma badgeIds_runOps_mono {bid : String} :
    ∀ (ops : List Op) (st : Store),
      bid ∈ badgeIds st → bid ∈ badgeIds (runOps st ops) := by
  intro ops
  induction ops with
  | nil => intro st h; exact h
  | cons op ops ih =>
    intro st h
    rw [runOps]
    refine ih _ ?_
    rw [badgeIds_stepOp]
    exact List.mem_append_left _ h

lemma countGrants_cons (bid : String) (g : List Badge)
    (tr : List (List Badge)) :
    countGrants bid (g :: tr) =
      (if g.any (fun b => b.id = bid) then 1 else 0) + countGrants bid tr := by
  unfold countGrants
  rw [List.filter_cons]
  by_cases h : g.any (fun b => b.id = bid) = true
  · simp [h, Nat.add_comm]
  · simp [h]

lemma countGrants_eq_zero {bid : String} :
    ∀ (ops : List Op) (st : Store), bid ∈ badgeIds st →
      countGrants bid (grantTrace st ops) = 0 := by
  intro ops
  induction ops with
  | nil => intro st _; rfl
  | cons op ops ih =>
    intro st h
    have hhead : ((stepOp st op).2).any (fun b => b.id = bid) = false := by
      by_contra hx
      rw [Bool.not_eq_false, List.any_eq_true] at hx
      obtain ⟨b, hb, hbid⟩ := hx
      have hbid' : b.id = bid := of_decide_eq_true hbid
      exact stepOp_fresh (List.mem_map.2 ⟨b, hb, hbid'⟩) h
    have hnext : bid ∈ badgeIds (stepOp st op).1 := by
      rw [badgeIds_stepOp]
      exact List.mem_append_left _ h
    rw [grantTrace, countGrants_cons, hhead, ih (stepOp st op).1 hnext]
    simp

lemma countGrants_le_one {bid : String} :
    ∀ (ops : List Op) (st : Store), countGrants bid (grantTrace st ops) ≤ 1 := by
  intro ops
  induction ops with
  | nil => intro st; simp [grantTrace, countGrants]
  | cons op ops ih =>
    intro st
    rw [grantTrace, countGrants_cons]
    by_cases hhead : ((stepOp st op).2).any (fun b => b.id = bid) = true
    · have hmem : bid ∈ badgeIds (stepOp st op).1 := by
        rw [List.any_eq_true] at hhead
        obtain ⟨b, hb, hbid⟩ := hhead
        have hbid' : b.id = bid := of_decide_eq_true hbid
        rw [badgeIds_stepOp]
        exact List.mem_append_right _ (List.mem_map.2 ⟨b, hb, hbid'⟩)
      rw [hhead, countGrants_eq_zero ops _ hmem]
      simp
    · have hfalse : ((stepOp st op).2).any (fun b => b.id = bid) = false := by
        simpa using hhead
      rw [hfalse]
      simpa using ih (stepOp st op).1

/-- C3: badges are never revoked — once a badge id is in the earned set it
survives every later `record`/badge-evaluation operation — and a badge id
appears in the newly-granted list of at most one call of a run. -/
theorem claim_C3 (st : Store) (ops : List Op) (bid : String) :
    (bid ∈ badgeIds st → bid ∈ badgeIds (runOps st ops)) ∧
    countGrants bid (grantTrace st ops) ≤ 1 :=
  ⟨badgeIds_runOps_mono ops st, countGrants_le_one ops st⟩

/-- Witness for C3: a store that already holds `streak3` keeps it across a
badge evaluation, and the run grants it at most once. -/
theorem claim_C3_witness :
    "streak3" ∈ badgeIds badgeStore ∧
    "streak3" ∈ badgeIds (runOps badgeStore [Op.evalBadges 0 0]) ∧
    countGrants "streak3" (grantTrace badgeStore [Op.evalBadges 0 0]) ≤ 1 :=
  ⟨by decide,
   (claim_C3 badgeStore [Op.evalBadges 0 0] "streak3").1 (by decide),
   (claim_C3 badgeStore [Op.evalBadges 0 0] "streak3").2⟩

lemma runCheckAndAwardBadges_achievements (st : Store) (today now : ℤ) :
    ((runCheckAndAwardBadges st today now).1).achievements =
      st.achievements := by
  by_cases h : checkAndAwardBadges st today now = [] <;>
    simp [runCheckAndAwardBadges, h]

lemma achievements_saveMealWithAchievements (st : Store) (d : MealDraft)
    (today now : ℤ) :
    getAchievements (saveMealWithAchievements st d today now).1 =
      getAchievements (applyMealAchievements st d today) := by
  unfold saveMealWithAchievements getAchievements
  rw [runCheckAndAwardBadges_achievements]

lemma jsOrQ_eq_getD {x : Option ℚ} {d : ℚ} (h : x ≠ some 0) :
    jsOrQ x d = x.getD d := by
  cases x with
  | none => rfl
  | some v =>
    have hv : v ≠ 0 := by
      rintro rfl
      exact h rfl
    simp [jsOrQ, hv]

/-- C6: at each `record()` call, the goal-hit counter is incremented by
exactly 1 when the post-insert daily calorie total is within 10% of the
target (defaulting to 2000 when absent), and unchanged otherwise.  The
hypothesis excludes a stored target of exactly 0, which the JS `||`
default also replaces by 2000. -/
theorem claim_C6 (st : Store) (d : MealDraft) (today now : ℤ)
    (h : (getSettingsD st).targetCalories ≠ some 0) :
    (getAchievements (saveMealWithAchievements st d today now).1).goalAchieved =
      if |getTodayCalories (saveMeal st d today) today -
            ((getSettingsD st).targetCalories).getD 2000| /
          ((getSettingsD st).targetCalories).getD 2000 ≤ 1/10
      then (getAchievements st).goalAchieved + 1
      else (getAchievements st).goalAchieved := by
  rw [achievements_saveMealWithAchievements]
  unfold applyMealAchievements getAchievements
  dsimp only
  rw [show getSettingsD (saveMeal st d today) = getSettingsD st from rfl,
    show (saveMeal st d today).achievements = st.achievements from rfl,
    jsOrQ_eq_getD h, Option.getD_some]

/-- Witness for C6: recording a 500 kcal meal into an empty store (target
2000) misses the ±10% goal band, so the counter stays at 0. -/
theorem claim_C6_witness :
    (getSettingsD emptyStore).targetCalories ≠ some 0 ∧
    (getAchievements (saveMealWithAchievements emptyStore sampleDraft 0 0).1).goalAchieved =
      (if |getTodayCalories (saveMeal emptyStore sampleDraft 0) 0 -
            ((getSettingsD emptyStore).targetCalories).getD 2000| /
          ((getSettingsD emptyStore).targetCalories).getD 2000 ≤ 1/10
       then (getAchievements emptyStore).goalAchieved + 1
       else (getAchievements emptyStore).goalAchieved) :=
  ⟨by decide, claim_C6 emptyStore sampleDraft 0 0 (by decide)⟩

/-- C5: an empty 7-day window yields the all-zero weekly result (score 0,
all component details 0, no feedback); a nonempty window whose total
macro-calories are 0 skips the macro-balance component: its detail is
undefined (`none`) and the score keeps the full 100-point base, adjusted
only by the other three components. -/
theorem claim_C5 :
    (∀ (st : Store) (today : ℤ),
        getRecentMeals st today 7 = [] →
        calculateWeeklyNutritionScore st today = ⟨0, some 0, 0, 0, 0, []⟩) ∧
    (∀ (st : Store) (today : ℤ),
        getRecentMeals st today 7 ≠ [] →
        ((getRecentMeals st today 7).map Meal.carbs).sum * 4 +
          ((getRecentMeals st today 7).map Meal.protein).sum * 4 +
          ((getRecentMeals st today 7).map Meal.fat).sum * 9 = 0 →
        (calculateWeeklyNutritionScore st today).macroBalance = none ∧
        (calculateWeeklyNutritionScore st today).score =
          max 0 (min 100
            (100 - 30 + (calculateWeeklyNutritionScore st today).calorieConsistency
              - 20 + (calculateWeeklyNutritionScore st today).sodiumControl
              - 10 + (calculateWeeklyNutritionScore st today).proteinAdequacy))) := by
  constructor
  · intro st today h
    have hw : getWeeklyNutritionBalance st today = none := by
      simp [getWeeklyNutritionBalance, h]
    simp [calculateWeeklyNutritionScore, hw]
  · intro st today hne hmac
    have hw : getWeeklyNutritionBalance st today =
        some ⟨((getRecentMeals st today 7).map Meal.calories).sum,
              ((getRecentMeals st today 7).map Meal.carbs).sum,
              ((getRecentMeals st today 7).map Meal.protein).sum,
              ((getRecentMeals st today 7).map Meal.fat).sum,
              ((getRecentMeals st today 7).map Meal.sodium).sum,
              (((getRecentMeals st today 7).map Meal.date).dedup).length⟩ := by
      simp [getWeeklyNutritionBalance, hne]
    have hdays : (((getRecentMeals st today 7).map Meal.date).dedup).length ≠ 0 := by
      obtain ⟨m, hm⟩ := List.exists_mem_of_ne_nil _ hne
      have hmem : m.date ∈ ((getRecentMeals st today 7).map Meal.date).dedup :=
        List.mem_dedup.2 (List.mem_map.2 ⟨m, hm, rfl⟩)
      intro h0
      rw [List.length_eq_zero] at h0
      exact List.ne_nil_of_mem hmem h0
    have hnot : ¬(0 < ((getRecentMeals st today 7).map Meal.carbs).sum * 4 +
        ((getRecentMeals st today 7).map Meal.protein).sum * 4 +
        ((getRecentMeals st today 7).map Meal.fat).sum * 9) := by
      rw [hmac]
      exact lt_irrefl 0
    rcases hres : calculateWeeklyNutritionScore st today with
      ⟨sc, mb, cc, sod, pa, fb⟩
    unfold calculateWeeklyNutritionScore at hres
    rw [hw] at hres
    dsimp only at hres
    rw [if_neg hdays, if_neg hnot] at hres
    dsimp only at hres
    simp only [WeeklyScore.mk.injEq] at hres
    obtain ⟨h1, h2, h3, h4, h5, h6⟩ := hres
    subst h1
    subst h2
    subst h3
    subst h4
    subst h5
    subst h6
    exact ⟨rfl, rfl⟩

/-- Witness for C5: an entirely empty store yields the zero result; a
window holding a single zero-macro meal keeps the 100 base and loses only
the calorie (20), sodium (0) and protein (8) penalties. -/
theorem claim_C5_witness :
    getRecentMeals emptyStore 0 7 = [] ∧
    calculateWeeklyNutritionScore emptyStore 0 = ⟨0, some 0, 0, 0, 0, []⟩ ∧
    getRecentMeals waterStore 10 7 ≠ [] ∧
    (calculateWeeklyNutritionScore waterStore 10).macroBalance = none ∧
    (calculateWeeklyNutritionScore waterStore 10).score =
      max 0 (min 100
        (100 - 30 + (calculateWeeklyNutritionScore waterStore 10).calorieConsistency
          - 20 + (calculateWeeklyNutritionScore waterStore 10).sodiumControl
          - 10 + (calculateWeeklyNutritionScore waterStore 10).proteinAdequacy)) :=
  by
  have h2 : getRecentMeals waterStore 10 7 ≠ [] := by decide
  have h3 : ((getRecentMeals waterStore 10 7).map Meal.carbs).sum * 4 +
      ((getRecentMeals waterStore 10 7).map Meal.protein).sum * 4 +
      ((getRecentMeals waterStore 10 7).map Meal.fat).sum * 9 = 0 := by
    have h : getRecentMeals waterStore 10 7 = [⟨"물", 0, 0, 0, 0, 0, 10⟩] := by
      decide
    rw [h]
    simp
  have hmain := claim_C5.2 waterStore 10 h2 h3
  exact ⟨rfl, claim_C5.1 emptyStore 0 rfl, h2, hmain.1, hmain.2⟩

/-- Counterexample to C8 as stated: start fasting (status `fasting`),
disable (status `disabled`, timestamps kept), re-enable — the status query
then reports the `fasting` phase again, i.e. re-enabling DOES resume the
interrupted phase, contrary to the claim that it resumes nothing. -/
theorem claim_C8_counterexample :
    (getFastingStatus (startFasting fastingIdleStore 0) 0).status =
      FastPhase.fasting ∧
    (getFastingStatus
        (toggleFastingMode (startFasting fastingIdleStore 0) false) 0).status =
      FastPhase.disabled ∧
    getFastingSettings
        (toggleFastingMode (startFasting fastingIdleStore 0) false) =
      { getFastingSettings (startFasting fastingIdleStore 0) with
          enabled := false } ∧
    (getFastingStatus
        (toggleFastingMode
          (toggleFastingMode (startFasting fastingIdleStore 0) false) true)
        0).status = FastPhase.fasting :=
  ⟨rfl, rfl, rfl, rfl⟩

/-- C8 (amended): disabling while in any phase reports `disabled` and
leaves the phase record untouched except for the `enabled` flag;
re-enabling restores the record exactly, so the status query resumes
reporting the interrupted phase (fasting, when the machine was mid-fast);
timestamps are cleared only by the explicit `end` operation. -/
theorem claim_C8 (st : Store) (now : ℤ) :
    (getFastingStatus (toggleFastingMode st false) now).status =
      FastPhase.disabled ∧
    getFastingSettings (toggleFastingMode st false) =
      { getFastingSettings st with enabled := false } ∧
    getFastingSettings (toggleFastingMode (toggleFastingMode st false) true) =
      { getFastingSettings st with enabled := true } ∧
    ((getFastingSettings st).isActive = true →
      (getFastingSettings st).fastingStartTime.isSome = true →
      (getFastingStatus
          (toggleFastingMode (toggleFastingMode st false) true) now).status =
        FastPhase.fasting) ∧
    (getFastingSettings (endFasting st)).fastingStartTime = none ∧
    (getFastingSettings (endFasting st)).fastingEndTime = none ∧
    (getFastingSettings (endFasting st)).eatingStartTime = none ∧
    (getFastingSettings (endFasting st)).eatingEndTime = none := by
  refine ⟨rfl, rfl, rfl, ?_, rfl, rfl, rfl, rfl⟩
  intro h1 h2
  have hs : getFastingSettings
      (toggleFastingMode (toggleFastingMode st false) true) =
      { getFastingSettings st with enabled := true } := rfl
  unfold getFastingStatus
  rw [hs]
  rw [if_neg (by simp), if_pos ⟨h1, h2⟩]

/-- Witness for C8 (amended): the machine started fasting at instant 0, so
after disable then re-enable the status query reports `fasting` again. -/
theorem claim_C8_witness :
    (getFastingSettings (startFasting fastingIdleStore 0)).isActive = true ∧
    (getFastingSettings (startFasting fastingIdleStore 0)).fastingStartTime.isSome = true ∧
    (getFastingStatus
        (toggleFastingMode
          (toggleFastingMode (startFasting fastingIdleStore 0) false) true)
        0).status = FastPhase.fasting :=
  ⟨rfl, rfl,
   (claim_C8 (startFasting fastingIdleStore 0) 0).2.2.2.1 rfl rfl⟩

end FoodAI
